import Mathlib

/-!
Shallow embedding of the FastAPI backend in `main.py` (request validation,
the `/run` mock row generator, and the `/test` diagnostic endpoint), together
with theorems settling the specification's claims about it.

Modelling conventions:
* Python floats are idealised as rationals (`ℚ`); the built-in `round(x, 2)`
  (round half to even in CPython) becomes `round2` below.
* CPython's Mersenne-Twister module is abstracted: a state type `σ`, a
  seeding function `mtSeed : ℕ → σ` (for `random.seed(42)`) and a draw
  function `u : ℚ → ℚ → σ → ℚ × σ` (for `random.uniform(a, b)`, returning
  the drawn value and the successor state). Every theorem about `/run` is
  quantified over all such generators, so it holds in particular for the
  real one.
* Strings are handled character-wise (`List Char`); `str.upper`, `str.strip`,
  `str.split` and `int(...)` are modelled on their ASCII fragment, which
  covers every string involved in the claims.
* `datetime.strptime(s, "%d%b%Y")` is modelled after CPython `_strptime`:
  day as two digits with value 1..31, a single digit 1..9, or a space
  followed by a digit 1..9; a case-insensitive three-letter month
  abbreviation; exactly four year digits; full-match required; then the
  `datetime(year, month, day)` range check (year ≥ 1, day within the month,
  leap years as in the Gregorian proleptic calendar).
  `strftime("%d%b%Y")` (C locale, glibc) zero-pads the day to two digits,
  renders the month abbreviation in title case (`Aug`), and the year as an
  unpadded decimal.
-/

set_option linter.unusedVariables false

/-- A single-quote character, used to build the exact validator messages of
`main.py` (which contain quoted examples). -/
def sQ : String := String.mk [Char.ofNat 39]

/-- Decidable equality for `Except`, so that concrete handler outcomes can
be checked by `decide`. -/
instance {ε α : Type} [DecidableEq ε] [DecidableEq α] : DecidableEq (Except ε α)
  | .ok x, .ok y => if h : x = y then .isTrue (by rw [h]) else .isFalse (by simp [h])
  | .ok _, .error _ => .isFalse (by simp)
  | .error _, .ok _ => .isFalse (by simp)
  | .error x, .error y => if h : x = y then .isTrue (by rw [h]) else .isFalse (by simp [h])

/-! ### Rounding: CPython `round(x, 2)` (round half to even), idealised on ℚ -/

/-- Floor of a rational as an integer, computed with flooring integer
division (`Int.fdiv`) so that proofs can evaluate it by reduction. -/
def qfloor (q : ℚ) : ℤ := Int.fdiv q.num q.den

/-- Round a rational to the nearest integer, ties to even — the rounding
mode of CPython's built-in `round`. The comparison of the fractional part
with 1/2 is done on integers (`2·(num − n·den)` versus `den`). -/
def roundHalfEven (q : ℚ) : ℤ :=
  let n := qfloor q
  let t := 2 * (q.num - n * (q.den : ℤ))
  if t < (q.den : ℤ) then n
  else if (q.den : ℤ) < t then n + 1
  else if n % 2 = 0 then n else n + 1

/-- Python `round(x, 2)` from `main.py`: round to two decimal places, half to even. -/
def round2 (q : ℚ) : ℚ := (roundHalfEven (q * 100) : ℚ) / 100

/-! ### Character/list utilities modelling `str.strip`, `str.split(',')`,
`str.upper` and `int(...)` -/

/-- Whitespace predicate of `str.strip()`, complete on ASCII: the
characters Python strips are tab, LF, VT (0x0b), FF (0x0c), CR, the file,
group, record and unit separators 0x1c–0x1f, and space. `Char.isWhitespace`
covers tab, LF, CR and space; the remaining ASCII whitespace is added
explicitly. -/
def wsp (c : Char) : Bool :=
  c.isWhitespace || c.toNat = 11 || c.toNat = 12 || (28 ≤ c.toNat && c.toNat ≤ 31)

/-- Model of `str.strip()` on a character list: drop whitespace from both ends. -/
def trimChars (l : List Char) : List Char :=
  ((l.dropWhile wsp).reverse.dropWhile wsp).reverse

/-- Model of `str.split(',')` on a character list: split at every comma, keeping
empty chunks (in Python, `them = ''.split(',')` gives one empty chunk). -/
def splitOnComma : List Char → List (List Char)
  | [] => [[]]
  | c :: rest =>
      let r := splitOnComma rest
      if c = ',' then [] :: r
      else
        match r with
        | t :: ts => (c :: t) :: ts
        | [] => [[c]]

/-- Model of `','.join(parts)` on character lists. -/
def intercalateComma : List (List Char) → List Char
  | [] => []
  | [p] => p
  | p :: ps => p ++ ',' :: intercalateComma ps

/-- Model of `str.upper()` on a string, character-wise (ASCII fragment). -/
def pyUpper (s : String) : String := String.mk (s.toList.map Char.toUpper)

/-- Numeric value of a decimal digit character. -/
def digitVal (c : Char) : ℕ := c.toNat - 48

/-- Tail of a CPython integer literal after its first digit: digits with
single underscores allowed between digits (in Python, `int` maps the text
1_0 to the number 10). -/
def digitpartAux : List Char → Bool
  | [] => true
  | c :: rest =>
      if c.isDigit then digitpartAux rest
      else if c = '_' then
        match rest with
        | [] => false
        | d :: r => d.isDigit && digitpartAux r
      else false

/-- A valid CPython digitpart: a leading digit, then digits with single
underscores between digits. -/
def isDigitpart : List Char → Bool
  | [] => false
  | c :: rest => c.isDigit && digitpartAux rest

/-- Value of a digitpart (underscores skipped). -/
def digitsToNat (l : List Char) : ℕ :=
  l.foldl (fun a c => if c = '_' then a else a * 10 + digitVal c) 0

/-- CPython `int(token)` on an already-stripped token: optional sign
followed by a digitpart (ASCII fragment; `none` where `int` raises
`ValueError`). -/
def pyIntTok (l : List Char) : Option ℤ :=
  match l with
  | '+' :: rest => if isDigitpart rest then some ((digitsToNat rest : ℤ)) else none
  | '-' :: rest => if isDigitpart rest then some (-(digitsToNat rest : ℤ)) else none
  | _ => if isDigitpart l then some ((digitsToNat l : ℤ)) else none

/-- The list comprehension from `validate_lines` (and the matching one in
`run_job`): split on commas, strip each chunk, keep the non-empty ones. -/
def lineTokens (v : String) : List (List Char) :=
  ((splitOnComma v.toList).map trimChars).filter (fun t => !t.isEmpty)

/-- Conversion of every token with `int(...)`, failing (like the Python list
comprehension) if any token is not an integer literal. -/
def mapIntTokens : List (List Char) → Option (List ℤ)
  | [] => some []
  | p :: ps =>
      match pyIntTok p, mapIntTokens ps with
      | some n, some ns => some (n :: ns)
      | _, _ => none

/-- The parsed line numbers of `run_job`: tokens of the (already validated)
`lines` string, each converted with `int(...)`. -/
def tokenInts (v : String) : Option (List ℤ) := mapIntTokens (lineTokens v)

/-! ### Dates: `datetime.strptime(s, "%d%b%Y")` and
`date.strftime("%d%b%Y")` -/

/-- A calendar date as produced by `datetime.strptime` (time fields are
always zero here and are omitted). -/
structure PyDate where
  year : ℕ
  month : ℕ
  day : ℕ
deriving DecidableEq

/-- Gregorian leap-year test, as in CPython's `calendar.isleap` /
`datetime`. -/
def isLeap (y : ℕ) : Bool := (y % 4 == 0 && y % 100 != 0) || (y % 400 == 0)

/-- Number of days of month `m` of year `y` (months counted from 1). -/
def daysInMonth (y m : ℕ) : ℕ :=
  if m = 2 then (if isLeap y then 29 else 28)
  else if m = 4 ∨ m = 6 ∨ m = 9 ∨ m = 11 then 30
  else 31

/-- Day-of-month parser for the `%d` directive. CPython compiles `%d` to
the ordered alternation `3[01]`, `[12]` digit, `0[1-9]`, `[1-9]`, and a
space followed by `[1-9]`: two digits with value 1–31, a single digit 1–9,
or a space-padded single digit. Regex backtracking from a failed two-digit
match to the one-digit alternative can never rescue a parse here, because
the following `%b` month pattern cannot match the leftover digit, so the
deterministic cases below are equivalent to the alternation inside
`strptime`. -/
def parseDay : List Char → Option (ℕ × List Char)
  | c1 :: c2 :: rest =>
      if c1 = ' ' then
        if c2.isDigit && 1 ≤ digitVal c2 then some (digitVal c2, rest) else none
      else if c1.isDigit then
        if c2.isDigit then
          let d := digitVal c1 * 10 + digitVal c2
          if 1 ≤ d ∧ d ≤ 31 then some (d, rest) else none
        else if 1 ≤ digitVal c1 then some (digitVal c1, c2 :: rest) else none
      else none
  | [c1] => if c1.isDigit ∧ 1 ≤ digitVal c1 then some (digitVal c1, []) else none
  | [] => none

/-- Case-insensitive character comparison against an uppercase letter, as in
the `re.IGNORECASE` month match of `_strptime`. -/
def ciEq (c u : Char) : Bool := c.toUpper = u

/-- The `%b` directive: case-insensitive match of a three-letter month
abbreviation of the C locale. -/
def matchMonth (a b c : Char) : Option ℕ :=
  if ciEq a 'J' && ciEq b 'A' && ciEq c 'N' then some 1
  else if ciEq a 'F' && ciEq b 'E' && ciEq c 'B' then some 2
  else if ciEq a 'M' && ciEq b 'A' && ciEq c 'R' then some 3
  else if ciEq a 'A' && ciEq b 'P' && ciEq c 'R' then some 4
  else if ciEq a 'M' && ciEq b 'A' && ciEq c 'Y' then some 5
  else if ciEq a 'J' && ciEq b 'U' && ciEq c 'N' then some 6
  else if ciEq a 'J' && ciEq b 'U' && ciEq c 'L' then some 7
  else if ciEq a 'A' && ciEq b 'U' && ciEq c 'G' then some 8
  else if ciEq a 'S' && ciEq b 'E' && ciEq c 'P' then some 9
  else if ciEq a 'O' && ciEq b 'C' && ciEq c 'T' then some 10
  else if ciEq a 'N' && ciEq b 'O' && ciEq c 'V' then some 11
  else if ciEq a 'D' && ciEq b 'E' && ciEq c 'C' then some 12
  else none

/-- Month parser for `%b`: consumes exactly three characters. -/
def parseMonth : List Char → Option (ℕ × List Char)
  | a :: b :: c :: rest => (matchMonth a b c).map (fun m => (m, rest))
  | _ => none

/-- Year parser for `%Y`: exactly four digits (CPython compiles `%Y` to a
four-digit regex group). -/
def parseYear4 : List Char → Option (ℕ × List Char)
  | a :: b :: c :: d :: rest =>
      if a.isDigit && b.isDigit && c.isDigit && d.isDigit then
        some (digitVal a * 1000 + digitVal b * 100 + digitVal c * 10 + digitVal d, rest)
      else none
  | _ => none

/-- Model of `datetime.strptime(s, "%d%b%Y")`: parse day (two digits, one
digit, or space plus digit), month and year, require the whole string to be
consumed, then apply the `datetime` constructor's range check (year ≥ 1;
the four-digit year is automatically ≤ 9999, the maximal `datetime` year;
day within the month). -/
def strptimeDDMMMYYYY (s : String) : Option PyDate :=
  match parseDay s.toList with
  | none => none
  | some (d, r1) =>
    match parseMonth r1 with
    | none => none
    | some (m, r2) =>
      match parseYear4 r2 with
      | none => none
      | some (y, r3) =>
          if r3 = [] ∧ 1 ≤ y ∧ d ≤ daysInMonth y m then some ⟨y, m, d⟩ else none

/-- The decimal digit character of `k` (for `k ≤ 9`). -/
def digitChar (k : ℕ) : Char := Char.ofNat (48 + k)

/-- The `%d` directive of `strftime`: day zero-padded to two digits. -/
def fmtDay2 (d : ℕ) : List Char := [digitChar (d / 10), digitChar (d % 10)]

/-- The `%b` directive of `strftime` in the C locale: title-case three-letter
month abbreviation. Months outside 1..12 never reach this function for dates
coming out of `strptimeDDMMMYYYY`. -/
def monthTitleChars : ℕ → List Char
  | 1 => ['J', 'a', 'n']
  | 2 => ['F', 'e', 'b']
  | 3 => ['M', 'a', 'r']
  | 4 => ['A', 'p', 'r']
  | 5 => ['M', 'a', 'y']
  | 6 => ['J', 'u', 'n']
  | 7 => ['J', 'u', 'l']
  | 8 => ['A', 'u', 'g']
  | 9 => ['S', 'e', 'p']
  | 10 => ['O', 'c', 't']
  | 11 => ['N', 'o', 'v']
  | _ => ['D', 'e', 'c']

/-- The uppercase three-letter month abbreviations, i.e. how an accepted
canonical date string spells its month after `str.upper()`. -/
def monthUpperChars : ℕ → List Char
  | 1 => ['J', 'A', 'N']
  | 2 => ['F', 'E', 'B']
  | 3 => ['M', 'A', 'R']
  | 4 => ['A', 'P', 'R']
  | 5 => ['M', 'A', 'Y']
  | 6 => ['J', 'U', 'N']
  | 7 => ['J', 'U', 'L']
  | 8 => ['A', 'U', 'G']
  | 9 => ['S', 'E', 'P']
  | 10 => ['O', 'C', 'T']
  | 11 => ['N', 'O', 'V']
  | _ => ['D', 'E', 'C']

/-- The `%Y` directive of `strftime` (glibc): the year as an unpadded
decimal number; years fed to it by this program are ≤ 9999. -/
def fmtYear (y : ℕ) : List Char :=
  if y < 10 then [digitChar y]
  else if y < 100 then [digitChar (y / 10), digitChar (y % 10)]
  else if y < 1000 then [digitChar (y / 100), digitChar (y / 10 % 10), digitChar (y % 10)]
  else [digitChar (y / 1000 % 10), digitChar (y / 100 % 10), digitChar (y / 10 % 10),
        digitChar (y % 10)]

/-- Model of `date.strftime("%d%b%Y")` in the C locale on glibc. -/
def strftimeDDMMMYYYY (d : PyDate) : String :=
  String.mk (fmtDay2 d.day ++ monthTitleChars d.month ++ fmtYear d.year)

/-! ### The pydantic validators of `RunRequest` -/

/-- Error message of `validate_from_date`. -/
def msg_from_date : String := "from_date must be DDMMMYYYY, e.g., 31AUG2019"

/-- Error message of `validate_to_date`. -/
def msg_to_date : String := "to_date must be DDMMMYYYY, e.g., 31JUL2019"

/-- Error message of `validate_lines` (contains single-quoted text). -/
def msg_lines : String :=
  "lines must be comma-separated integers, e.g., " ++ sQ ++ "6,17" ++ sQ

/-- Error message of `validate_country` (contains single-quoted text). -/
def msg_country : String :=
  "country must be ISO code like " ++ sQ ++ "SG" ++ sQ ++ " or " ++ sQ ++ "SGP" ++ sQ

/-- Validator `RunRequest.validate_from_date`: `strptime(v.upper(), "%d%b%Y")` must
succeed; the validated value is `v.upper()`. -/
def validate_from_date (v : String) : Except String String :=
  match strptimeDDMMMYYYY (pyUpper v) with
  | some _ => .ok (pyUpper v)
  | none => .error msg_from_date

/-- Validator `RunRequest.validate_to_date`: `None` and the empty string are
normalised to `None`; otherwise like `validate_from_date`. -/
def validate_to_date (v : Option String) : Except String (Option String) :=
  match v with
  | none => .ok none
  | some s =>
      if s = "" then .ok none
      else
        match strptimeDDMMMYYYY (pyUpper s) with
        | some _ => .ok (some (pyUpper s))
        | none => .error msg_to_date

/-- Validator `RunRequest.validate_lines`: split on commas, strip, drop empty chunks;
fail if nothing is left or some token is not an `int` literal; the validated
value joins the stripped tokens with commas. -/
def validate_lines (v : String) : Except String String :=
  let parts := lineTokens v
  if parts.isEmpty then .error msg_lines
  else if parts.any (fun p => (pyIntTok p).isNone) then .error msg_lines
  else .ok (String.mk (intercalateComma parts))

/-- Validator `RunRequest.validate_country`: strip and uppercase; the result must have
length 2 or 3. -/
def validate_country (v : String) : Except String String :=
  let t := (trimChars v.toList).map Char.toUpper
  if t.isEmpty || (t.length != 2 && t.length != 3) then .error msg_country
  else .ok (String.mk t)

/-- The raw body of a `POST /run` request, before validation. A missing
`to_date` and an explicit `null` both arrive as `none`. -/
structure RawRun where
  from_date : String
  to_date : Option String
  lines : String
  country : String
deriving DecidableEq

/-- The validated `RunRequest` model, as the `run_job` handler receives it. -/
structure RunRequest where
  from_date : String
  to_date : Option String
  lines : String
  country : String
deriving DecidableEq

/-- Construction of the pydantic model: every field validator must accept.
pydantic reports the errors of all failing fields together; this model keeps
the first failing validator's message, in field declaration order, which is
enough for every claim (they only depend on acceptance versus rejection and
on the message of the single failing field). -/
def validateRequest (r : RawRun) : Except String RunRequest :=
  match validate_from_date r.from_date with
  | .error m => .error m
  | .ok fd =>
    match validate_to_date r.to_date with
    | .error m => .error m
    | .ok td =>
      match validate_lines r.lines with
      | .error m => .error m
      | .ok ls =>
        match validate_country r.country with
        | .error m => .error m
        | .ok co => .ok ⟨fd, td, ls, co⟩

/-! ### The `/run` handler -/

/-- A JSON leaf value of an output row: Python mixes floats and the empty
string in the same dict slots. -/
inductive JVal where
  | num (q : ℚ)
  | str (s : String)
deriving DecidableEq

/-- One simulated dataset row of `run_job`. `VALUE` is always a number;
`PREV_VALUE` and `DELTA` are either numbers or the empty string. -/
structure OutputRow where
  COUNTRY : String
  LINE : ℤ
  REPORT_DATE : String
  PREV_DATE : String
  VALUE : ℚ
  PREV_VALUE : JVal
  DELTA : JVal
deriving DecidableEq

/-- The JSON body of a successful `/run` response. -/
structure RunResponse where
  rows : List OutputRow
deriving DecidableEq

/-- The abstracted `random.uniform`: given the two bounds and the generator
state, produce the drawn value and the successor state. -/
abbrev Uniform (σ : Type) := ℚ → ℚ → σ → ℚ × σ

/-- The row-generation loop of `run_job`. For each line number: one
`uniform(1000, 5000)` draw for the base value and, only when a previous date
is present, one `uniform(0.9, 1.1)` draw for the previous value. `DELTA` is
produced under Python truthiness of `value_prev`: it is the empty string
both when `value_prev` is `None` and when it equals 0.0. Returns the rows
and the final generator state. -/
def genRows {σ : Type} (u : Uniform σ) (prevb : Bool) (co rd pd : String) :
    List ℤ → σ → List OutputRow × σ
  | [], s => ([], s)
  | ln :: rest, s =>
      let b := (u 1000 5000 s).1
      let s1 := (u 1000 5000 s).2
      let value_today := round2 (b * (1 + (ln : ℚ) / 100))
      let value_prev : Option ℚ :=
        if prevb then some (round2 (value_today * (u (9/10) (11/10) s1).1)) else none
      let s2 := if prevb then (u (9/10) (11/10) s1).2 else s1
      let row : OutputRow :=
        { COUNTRY := co, LINE := ln, REPORT_DATE := rd, PREV_DATE := pd,
          VALUE := value_today,
          PREV_VALUE := (match value_prev with
            | some q => JVal.num q
            | none => JVal.str ""),
          DELTA := (match value_prev with
            | some q => if q = 0 then JVal.str "" else JVal.num (round2 (value_today - q))
            | none => JVal.str "") }
      let t := genRows u prevb co rd pd rest s2
      (row :: t.1, t.2)

/-- Python truthiness of the optional `to_date` field: `None` and the empty
string are falsy. -/
def pyTruthy : Option String → Bool
  | none => false
  | some s => s != ""

/-- The previous-date computation of `run_job`:
`datetime.strptime(payload.to_date, "%d%b%Y") if payload.to_date else None`.
The outer `Option` is the possible `strptime` failure, the inner one is
`prev_date` itself (absent for falsy `to_date`). -/
def parse_prev (t : Option String) : Option (Option PyDate) :=
  if pyTruthy t then (strptimeDDMMMYYYY (t.getD "")).map some else some none

/-- Message of the `ValueError` raised by a failed `strptime` (the Python
text quotes the input and the format). -/
def strptimeErrMsg (s : String) : String :=
  "time data " ++ sQ ++ s ++ sQ ++ " does not match format " ++ sQ ++ "%d%b%Y" ++ sQ

/-- The `PREV_DATE` string of the rows: the formatted previous date, or the
empty string when there is none. -/
def pdString : Option PyDate → String
  | some d => strftimeDDMMMYYYY d
  | none => ""

/-- Message head of the `ValueError` raised by `int()` on a bad literal (the
Python text also quotes the offending token, elided here; no claim depends
on this dead branch's text). -/
def intErrMsg : String := "invalid literal for int() with base 10"

/-- The body of the `run_job` handler on the validated model: re-parse the
dates and line numbers (any exception would become an HTTP 400), then
`random.seed(42)` and the row loop. Threads the generator state: the
incoming `st` is whatever state earlier requests left behind, and the
returned state is the one left for later requests. -/
def run_job {σ : Type} (u : Uniform σ) (mtSeed : ℕ → σ) (p : RunRequest) (st : σ) :
    Except (ℕ × String) RunResponse × σ :=
  match strptimeDDMMMYYYY p.from_date with
  | none => (.error (400, strptimeErrMsg p.from_date), st)
  | some report_date =>
    match parse_prev p.to_date with
    | none => (.error (400, strptimeErrMsg (p.to_date.getD "")), st)
    | some prev_date =>
      match tokenInts p.lines with
      | none => (.error (400, intErrMsg), st)
      | some line_numbers =>
          let s0 := mtSeed 42
          let res := genRows u prev_date.isSome p.country (strftimeDDMMMYYYY report_date)
            (pdString prev_date) line_numbers s0
          (.ok ⟨res.1⟩, res.2)

/-- Full dispatch of `POST /run`: FastAPI first builds the pydantic model;
a `ValidationError` is turned into an HTTP 422 response carrying the
validation message by FastAPI's default `RequestValidationError` handler
(validation failures never reach the handler body, whose own
`HTTPException` uses status 400). On validation success the handler body
runs. -/
def handle_run {σ : Type} (u : Uniform σ) (mtSeed : ℕ → σ) (r : RawRun) (st : σ) :
    Except (ℕ × String) RunResponse × σ :=
  match validateRequest r with
  | .error m => (.error (422, m), st)
  | .ok p => run_job u mtSeed p st

/-! ### The `GET /test` diagnostic endpoint -/

/-- The observable surface of the optional `database.db` object: its `name`
attribute (absent when `hasattr(db, 'name')` is false) and the outcome of
`list_collection_names()` (a list, or the text of a raised exception). -/
structure DBConn where
  name : Option String
  listCollections : Except String (List String)

/-- Outcome of `from database import db`: the module may be missing
(`ImportError`), its import may raise some other exception, or it may
provide `db`, which can itself be `None`. -/
inductive DbImport where
  | importError
  | otherError (msg : String)
  | imported (db : Option DBConn)

/-- The environment `test_database` observes: the import outcome and the
presence of the two environment variables. -/
structure TestEnv where
  dbimport : DbImport
  database_url_set : Bool
  database_name_set : Bool

/-- The JSON object returned by `GET /test`. `database_url` and
`database_name` start as `None` (hence `Option`) but are overwritten with
strings before the response is returned. -/
structure TestResponse where
  backend : String
  database : String
  database_url : Option String
  database_name : Option String
  connection_status : String
  collections : List String
deriving DecidableEq

/-- The `test_database` handler of `GET /test`: builds the default response,
updates it according to the import outcome (every failure is caught and
reported as status text), then unconditionally overwrites `database_url` and
`database_name` with the environment-variable presence checks. Total: no
branch raises. -/
def test_database (env : TestEnv) : TestResponse :=
  let base : TestResponse :=
    { backend := "✅ Running", database := "❌ Not Available", database_url := none,
      database_name := none, connection_status := "Not Connected", collections := [] }
  let r1 : TestResponse :=
    match env.dbimport with
    | .importError =>
        { base with database := "❌ Database module not found (run enable-database first)" }
    | .otherError m =>
        { base with database := "❌ Error: " ++ String.mk (m.toList.take 50) }
    | .imported none => { base with database := "⚠️  Available but not initialized" }
    | .imported (some db) =>
        let r : TestResponse :=
          { base with
            database := "✅ Available", database_url := some "✅ Configured",
            database_name := some (db.name.getD "✅ Connected"),
            connection_status := "Connected" }
        match db.listCollections with
        | .ok cols => { r with collections := cols.take 10, database := "✅ Connected & Working" }
        | .error e =>
            { r with database := "⚠️  Connected but Error: " ++ String.mk (e.toList.take 50) }
  { r1 with
    database_url := some (if env.database_url_set then "✅ Set" else "❌ Not Set"),
    database_name := some (if env.database_name_set then "✅ Set" else "❌ Not Set") }

/-! ### The draw sequence of one `/run` request, indexed by row number.

These definitions re-express the row loop of `run_job` non-recursively: the
state before row `i`, the base draw and factor draw of row `i`, and the
resulting row. The theorems below prove that `genRows` produces exactly
these rows. -/

/-- Generator state advance of one loop iteration: one base draw, plus one
factor draw when a previous date is present. -/
def stepState {σ : Type} (u : Uniform σ) (prevb : Bool) (s : σ) : σ :=
  let s1 := (u 1000 5000 s).2
  if prevb then (u (9/10) (11/10) s1).2 else s1

/-- Generator state before row `i`, starting from `s0` (the state right
after `random.seed(42)`). -/
def stateAt {σ : Type} (u : Uniform σ) (prevb : Bool) (s0 : σ) : ℕ → σ
  | 0 => s0
  | n + 1 => stepState u prevb (stateAt u prevb s0 n)

/-- The `uniform(1000, 5000)` base draw of row `i`. -/
def baseAt {σ : Type} (u : Uniform σ) (prevb : Bool) (s0 : σ) (i : ℕ) : ℚ :=
  (u 1000 5000 (stateAt u prevb s0 i)).1

/-- The `uniform(0.9, 1.1)` factor draw of row `i` (only consumed when a
previous date is present). -/
def factorAt {σ : Type} (u : Uniform σ) (prevb : Bool) (s0 : σ) (i : ℕ) : ℚ :=
  (u (9/10) (11/10) (u 1000 5000 (stateAt u prevb s0 i)).2).1

/-- Field `VALUE` of row `i` for line number `ln`:
`round(uniform(1000, 5000) * (1 + ln/100), 2)`. -/
def valueAt {σ : Type} (u : Uniform σ) (prevb : Bool) (s0 : σ) (ln : ℤ) (i : ℕ) : ℚ :=
  round2 (baseAt u prevb s0 i * (1 + (ln : ℚ) / 100))

/-- The previous value of row `i`: `round(value * uniform(0.9, 1.1), 2)`. -/
def prevValAt {σ : Type} (u : Uniform σ) (prevb : Bool) (s0 : σ) (ln : ℤ) (i : ℕ) : ℚ :=
  round2 (valueAt u prevb s0 ln i * factorAt u prevb s0 i)

/-- Row `i` of the response, as dictated by the draw sequence. `DELTA`
reflects the Python truthiness test on `value_prev`: it is empty both
without a previous date and when the previous value is exactly 0. -/
def rowSpec {σ : Type} (u : Uniform σ) (prevb : Bool) (s0 : σ) (co rd pd : String)
    (ln : ℤ) (i : ℕ) : OutputRow :=
  { COUNTRY := co, LINE := ln, REPORT_DATE := rd, PREV_DATE := pd,
    VALUE := valueAt u prevb s0 ln i,
    PREV_VALUE := if prevb then JVal.num (prevValAt u prevb s0 ln i) else JVal.str "",
    DELTA := if prevb then
               (if prevValAt u prevb s0 ln i = 0 then JVal.str ""
                else JVal.num (round2 (valueAt u prevb s0 ln i - prevValAt u prevb s0 ln i)))
             else JVal.str "" }

/-- The canonical uppercase rendering of a date, i.e. the shape of an
accepted `from_date`/`to_date` string after `str.upper()`: two day digits,
uppercase month abbreviation, four year digits. -/
def canonUpper (d : PyDate) : String :=
  String.mk (fmtDay2 d.day ++ monthUpperChars d.month ++ fmtYear d.year)

/-- A concrete degenerate generator used to instantiate the quantified
theorems at concrete inputs: stateless, always drawing the lower bound. -/
def uU : Uniform Unit := fun a _ _ => (a, ())

/-- The seeding function of the degenerate generator. -/
def seedU : ℕ → Unit := fun _ => ()

/-! ### Lemmas about the row loop -/

lemma genRows_cons {σ : Type} (u : Uniform σ) (prevb : Bool) (co rd pd : String)
    (ln : ℤ) (rest : List ℤ) (s : σ) :
    genRows u prevb co rd pd (ln :: rest) s =
      (rowSpec u prevb s co rd pd ln 0 ::
         (genRows u prevb co rd pd rest (stepState u prevb s)).1,
       (genRows u prevb co rd pd rest (stepState u prevb s)).2) := by
  cases prevb <;>
    simp [genRows, rowSpec, stepState, valueAt, prevValAt, baseAt, factorAt, stateAt]

lemma stateAt_step {σ : Type} (u : Uniform σ) (prevb : Bool) (s : σ) (i : ℕ) :
    stateAt u prevb (stepState u prevb s) i = stateAt u prevb s (i + 1) := by
  induction i with
  | zero => rfl
  | succ n ih =>
      show stepState u prevb (stateAt u prevb (stepState u prevb s) n) = _
      rw [ih]
      rfl

lemma rowSpec_step {σ : Type} (u : Uniform σ) (prevb : Bool) (s : σ) (co rd pd : String)
    (ln : ℤ) (i : ℕ) :
    rowSpec u prevb (stepState u prevb s) co rd pd ln i =
      rowSpec u prevb s co rd pd ln (i + 1) := by
  simp [rowSpec, valueAt, prevValAt, baseAt, factorAt, stateAt_step]

lemma genRows_length {σ : Type} (u : Uniform σ) (prevb : Bool) (co rd pd : String)
    (ls : List ℤ) : ∀ s : σ, ((genRows u prevb co rd pd ls s).1).length = ls.length := by
  induction ls with
  | nil => intro s; rfl
  | cons ln rest ih => intro s; rw [genRows_cons]; simp [ih]

lemma genRows_get? {σ : Type} (u : Uniform σ) (prevb : Bool) (co rd pd : String)
    (ls : List ℤ) : ∀ (s : σ) (i : ℕ) (hi : i < ls.length),
      ((genRows u prevb co rd pd ls s).1)[i]? =
        some (rowSpec u prevb s co rd pd (ls.get ⟨i, hi⟩) i) := by
  induction ls with
  | nil => intro s i hi; exact absurd hi (by simp)
  | cons ln rest ih =>
      intro s i hi
      match i with
      | 0 => rw [genRows_cons]; simp
      | Nat.succ n =>
          have hn : n < rest.length := by simpa using hi
          rw [genRows_cons]
          simp only [List.getElem?_cons_succ, List.get_cons_succ]
          rw [ih (stepState u prevb s) n hn, rowSpec_step]

lemma genRows_map_LINE {σ : Type} (u : Uniform σ) (prevb : Bool) (co rd pd : String)
    (ls : List ℤ) : ∀ s : σ, ((genRows u prevb co rd pd ls s).1).map (fun r => r.LINE) = ls := by
  induction ls with
  | nil => intro s; rfl
  | cons ln rest ih => intro s; rw [genRows_cons]; simp [ih, rowSpec]

lemma genRows_PREV_DATE {σ : Type} (u : Uniform σ) (prevb : Bool) (co rd pd : String)
    (ls : List ℤ) : ∀ (s : σ) (r : OutputRow), r ∈ (genRows u prevb co rd pd ls s).1 →
      r.PREV_DATE = pd := by
  induction ls with
  | nil => intro s r hr; simp [genRows] at hr
  | cons ln rest ih =>
      intro s r hr
      rw [genRows_cons] at hr
      rcases List.mem_cons.mp hr with h | h
      · rw [h]; rfl
      · exact ih (stepState u prevb s) r h

lemma genRows_no_prev {σ : Type} (u : Uniform σ) (co rd pd : String)
    (ls : List ℤ) : ∀ (s : σ) (r : OutputRow), r ∈ (genRows u false co rd pd ls s).1 →
      r.PREV_VALUE = JVal.str "" ∧ r.DELTA = JVal.str "" := by
  induction ls with
  | nil => intro s r hr; simp [genRows] at hr
  | cons ln rest ih =>
      intro s r hr
      rw [genRows_cons] at hr
      rcases List.mem_cons.mp hr with h | h
      · rw [h]; exact ⟨rfl, rfl⟩
      · exact ih (stepState u false s) r h

/-! ### Lemmas about `run_job` and the validators -/

lemma run_job_ok {σ : Type} (u : Uniform σ) (mtSeed : ℕ → σ) (p : RunRequest) (st : σ)
    (rd : PyDate) (prevOpt : Option PyDate) (ls : List ℤ)
    (h1 : strptimeDDMMMYYYY p.from_date = some rd)
    (h2 : parse_prev p.to_date = some prevOpt)
    (h3 : tokenInts p.lines = some ls) :
    run_job u mtSeed p st =
      (.ok ⟨(genRows u prevOpt.isSome p.country (strftimeDDMMMYYYY rd)
               (pdString prevOpt) ls (mtSeed 42)).1⟩,
       (genRows u prevOpt.isSome p.country (strftimeDDMMMYYYY rd)
          (pdString prevOpt) ls (mtSeed 42)).2) := by
  simp [run_job, h1, h2, h3]

lemma run_job_err_from {σ : Type} (u : Uniform σ) (mtSeed : ℕ → σ) (p : RunRequest) (st : σ)
    (h1 : strptimeDDMMMYYYY p.from_date = none) :
    run_job u mtSeed p st = (.error (400, strptimeErrMsg p.from_date), st) := by
  simp [run_job, h1]

lemma run_job_err_prev {σ : Type} (u : Uniform σ) (mtSeed : ℕ → σ) (p : RunRequest) (st : σ)
    (rd : PyDate) (h1 : strptimeDDMMMYYYY p.from_date = some rd)
    (h2 : parse_prev p.to_date = none) :
    run_job u mtSeed p st = (.error (400, strptimeErrMsg (p.to_date.getD "")), st) := by
  simp [run_job, h1, h2]

lemma run_job_err_lines {σ : Type} (u : Uniform σ) (mtSeed : ℕ → σ) (p : RunRequest) (st : σ)
    (rd : PyDate) (prevOpt : Option PyDate)
    (h1 : strptimeDDMMMYYYY p.from_date = some rd)
    (h2 : parse_prev p.to_date = some prevOpt)
    (h3 : tokenInts p.lines = none) :
    run_job u mtSeed p st = (.error (400, intErrMsg), st) := by
  simp [run_job, h1, h2, h3]

lemma validateRequest_ok_fields (r : RawRun) (p : RunRequest)
    (h : validateRequest r = .ok p) :
    validate_from_date r.from_date = .ok p.from_date ∧
    validate_to_date r.to_date = .ok p.to_date ∧
    validate_lines r.lines = .ok p.lines ∧
    validate_country r.country = .ok p.country := by
  unfold validateRequest at h
  cases h1 : validate_from_date r.from_date <;> rw [h1] at h
  case error => simp at h
  case ok fd =>
  cases h2 : validate_to_date r.to_date <;> rw [h2] at h
  case error => simp at h
  case ok td =>
  cases h3 : validate_lines r.lines <;> rw [h3] at h
  case error => simp at h
  case ok ls =>
  cases h4 : validate_country r.country <;> rw [h4] at h
  case error => simp at h
  case ok co =>
  have hp := Except.ok.inj h
  rw [← hp]
  exact ⟨rfl, rfl, rfl, rfl⟩

lemma validateRequest_lines_error (r : RawRun) (m : String)
    (h : validate_lines r.lines = .error m) : ∃ m2, validateRequest r = .error m2 := by
  unfold validateRequest
  cases h1 : validate_from_date r.from_date with
  | error m1 => exact ⟨m1, rfl⟩
  | ok fd =>
      cases h2 : validate_to_date r.to_date with
      | error m2 => exact ⟨m2, rfl⟩
      | ok td => rw [h]; exact ⟨m, rfl⟩

lemma validate_from_date_ok (v w : String) (h : validate_from_date v = .ok w) :
    ∃ d, strptimeDDMMMYYYY w = some d := by
  unfold validate_from_date at h
  cases hp : strptimeDDMMMYYYY (pyUpper v) <;> rw [hp] at h
  · simp at h
  case some d =>
      refine ⟨d, ?_⟩
      rw [← Except.ok.inj h]
      exact hp

lemma validate_to_date_ok (t ot : Option String) (h : validate_to_date t = .ok ot) :
    ∃ po, parse_prev ot = some po := by
  cases t with
  | none =>
      have hot : ot = none := (Except.ok.inj h).symm
      exact ⟨none, by rw [hot]; decide⟩
  | some s =>
      have h2 : (if s = "" then (Except.ok none : Except String (Option String))
          else match strptimeDDMMMYYYY (pyUpper s) with
            | some _ => Except.ok (some (pyUpper s))
            | none => Except.error msg_to_date) = Except.ok ot := h
      by_cases hs : s = ""
      · rw [if_pos hs] at h2
        have hot : ot = none := (Except.ok.inj h2).symm
        exact ⟨none, by rw [hot]; decide⟩
      · rw [if_neg hs] at h2
        cases hp : strptimeDDMMMYYYY (pyUpper s) with
        | none => rw [hp] at h2; simp at h2
        | some d =>
            rw [hp] at h2
            have hot : ot = some (pyUpper s) := (Except.ok.inj h2).symm
            have hne : pyUpper s ≠ "" := by
              intro h0
              rw [h0] at hp
              rw [show strptimeDDMMMYYYY "" = none from rfl] at hp
              simp at hp
            refine ⟨some d, ?_⟩
            rw [hot]
            unfold parse_prev
            rw [if_pos (by simp [pyTruthy, hne])]
            simp [hp]

lemma validate_lines_ok (v w : String) (h : validate_lines v = .ok w) :
    lineTokens v ≠ [] ∧ (∀ p ∈ lineTokens v, (pyIntTok p).isSome = true) ∧
    w = String.mk (intercalateComma (lineTokens v)) := by
  unfold validate_lines at h
  by_cases he : (lineTokens v).isEmpty
  · rw [if_pos he] at h; simp at h
  · rw [if_neg he] at h
    by_cases ha : (lineTokens v).any fun p => (pyIntTok p).isNone
    · rw [if_pos ha] at h; simp at h
    · rw [if_neg ha] at h
      refine ⟨fun hnil => he (by simp [hnil]), ?_, (Except.ok.inj h).symm⟩
      intro p hp
      have hnot : ¬((pyIntTok p).isNone = true) :=
        fun hn => ha (List.any_eq_true.mpr ⟨p, hp, hn⟩)
      cases ho : pyIntTok p
      · rw [ho] at hnot; simp at hnot
      · rfl

lemma validate_from_date_error_msg (v : String) (m : String)
    (h : validate_from_date v = .error m) : m = msg_from_date := by
  unfold validate_from_date at h
  cases hp : strptimeDDMMMYYYY (pyUpper v) <;> rw [hp] at h <;> simp_all

lemma validate_to_date_error_msg (v : Option String) (m : String)
    (h : validate_to_date v = .error m) : m = msg_to_date := by
  unfold validate_to_date at h
  cases v with
  | none => simp_all
  | some s =>
      by_cases hs : s = "" <;> simp [hs] at h
      cases hp : strptimeDDMMMYYYY (pyUpper s) <;> rw [hp] at h <;> simp_all

lemma validate_lines_error_msg (v : String) (m : String)
    (h : validate_lines v = .error m) : m = msg_lines := by
  simp only [validate_lines] at h
  split at h
  · simp_all
  · split at h <;> simp_all

lemma validate_country_error_msg (v : String) (m : String)
    (h : validate_country v = .error m) : m = msg_country := by
  simp only [validate_country] at h
  split at h <;> simp_all

lemma validateRequest_error_msg (r : RawRun) (m : String)
    (h : validateRequest r = .error m) :
    m = msg_from_date ∨ m = msg_to_date ∨ m = msg_lines ∨ m = msg_country := by
  unfold validateRequest at h
  cases h1 : validate_from_date r.from_date with
  | error m1 => rw [h1] at h; exact Or.inl (by
      have := validate_from_date_error_msg r.from_date m1 h1
      simp_all)
  | ok fd =>
      rw [h1] at h
      cases h2 : validate_to_date r.to_date with
      | error m2 => rw [h2] at h; exact Or.inr (Or.inl (by
          have := validate_to_date_error_msg r.to_date m2 h2
          simp_all))
      | ok td =>
          rw [h2] at h
          cases h3 : validate_lines r.lines with
          | error m3 => rw [h3] at h; exact Or.inr (Or.inr (Or.inl (by
              have := validate_lines_error_msg r.lines m3 h3
              simp_all)))
          | ok ls =>
              rw [h3] at h
              cases h4 : validate_country r.country with
              | error m4 => rw [h4] at h; exact Or.inr (Or.inr (Or.inr (by
                  have := validate_country_error_msg r.country m4 h4
                  simp_all)))
              | ok co => rw [h4] at h; simp_all

/-! ### List plumbing: splitting, trimming and joining of the `lines` field -/

lemma splitOnComma_ne_nil (l : List Char) : splitOnComma l ≠ [] := by
  induction l with
  | nil => simp [splitOnComma]
  | cons c rest ih =>
      simp only [splitOnComma]
      split
      · simp
      · split <;> simp

lemma splitOnComma_no_comma (l : List Char) : ∀ t ∈ splitOnComma l, ',' ∉ t := by
  induction l with
  | nil =>
      intro t ht
      simp [splitOnComma] at ht
      simp [ht]
  | cons c rest ih =>
      intro t ht
      simp only [splitOnComma] at ht
      by_cases hc : c = ','
      · rw [if_pos hc] at ht
        rcases List.mem_cons.mp ht with h | h
        · simp [h]
        · exact ih t h
      · rw [if_neg hc] at ht
        cases hs : splitOnComma rest with
        | nil => exact absurd hs (splitOnComma_ne_nil rest)
        | cons t0 ts =>
            rw [hs] at ht
            rcases List.mem_cons.mp ht with h | h
            · subst h
              intro hmem
              rcases List.mem_cons.mp hmem with h2 | h2
              · exact hc h2.symm
              · exact ih t0 (hs ▸ List.mem_cons_self t0 ts) h2
            · exact ih t (hs ▸ List.mem_cons_of_mem t0 h)

lemma splitOnComma_no_comma_eq (p : List Char) (hp : ',' ∉ p) : splitOnComma p = [p] := by
  induction p with
  | nil => rfl
  | cons c p' ih =>
      have hc : c ≠ ',' := fun h => hp (h ▸ List.mem_cons_self c p')
      have hp' : ',' ∉ p' := fun h => hp (List.mem_cons_of_mem c h)
      simp only [splitOnComma, ih hp']
      rw [if_neg (fun h => hc h)]

lemma splitOnComma_append (p r : List Char) (hp : ',' ∉ p) :
    splitOnComma (p ++ ',' :: r) = p :: splitOnComma r := by
  induction p with
  | nil => simp [splitOnComma]
  | cons c p' ih =>
      have hc : c ≠ ',' := fun h => hp (h ▸ List.mem_cons_self c p')
      have hp' : ',' ∉ p' := fun h => hp (List.mem_cons_of_mem c h)
      rw [List.cons_append]
      simp only [splitOnComma, ih hp']
      rw [if_neg (fun h => hc h)]

lemma intercalateComma_cons2 (p q : List Char) (qs : List (List Char)) :
    intercalateComma (p :: q :: qs) = p ++ ',' :: intercalateComma (q :: qs) := rfl

lemma splitOnComma_intercalate (parts : List (List Char)) (hne : parts ≠ [])
    (hcf : ∀ p ∈ parts, ',' ∉ p) :
    splitOnComma (intercalateComma parts) = parts := by
  induction parts with
  | nil => exact absurd rfl hne
  | cons p ps ih =>
      cases ps with
      | nil => exact splitOnComma_no_comma_eq p (hcf p (List.mem_cons_self p []))
      | cons q qs =>
          rw [intercalateComma_cons2,
            splitOnComma_append p _ (hcf p (List.mem_cons_self p (q :: qs))),
            ih (by simp) (fun x hx => hcf x (List.mem_cons_of_mem p hx))]

lemma dropWhile_idem (p : Char → Bool) (l : List Char) :
    (l.dropWhile p).dropWhile p = l.dropWhile p := by
  induction l with
  | nil => rfl
  | cons c rest ih =>
      by_cases h : p c
      · simp [List.dropWhile_cons, h, ih]
      · simp [List.dropWhile_cons, h]

lemma dropWhile_suffix (p : Char → Bool) (l : List Char) : l.dropWhile p <:+ l := by
  induction l with
  | nil => simp
  | cons c rest ih =>
      by_cases h : p c
      · rw [List.dropWhile_cons, if_pos h]
        exact ih.trans (List.suffix_cons c rest)
      · rw [List.dropWhile_cons, if_neg h]

lemma suffix_reverse_to_pfx {α : Type} (y x : List α) (h : y <:+ x.reverse) :
    y.reverse <+: x := by
  obtain ⟨t, ht⟩ := h
  refine ⟨t.reverse, ?_⟩
  have : x.reverse.reverse = (t ++ y).reverse := by rw [ht]
  rw [List.reverse_reverse, List.reverse_append] at this
  rw [this]

lemma mem_trimChars {c : Char} {l : List Char} (h : c ∈ trimChars l) : c ∈ l := by
  unfold trimChars at h
  have h1 : c ∈ (l.dropWhile wsp).reverse.dropWhile wsp := List.mem_reverse.mp h
  have h2 : c ∈ (l.dropWhile wsp).reverse := (dropWhile_suffix wsp _).subset h1
  have h3 : c ∈ l.dropWhile wsp := List.mem_reverse.mp h2
  exact (dropWhile_suffix wsp l).subset h3

lemma trimChars_pfx_dropWhile (l : List Char) :
    trimChars l <+: l.dropWhile wsp := by
  unfold trimChars
  exact suffix_reverse_to_pfx _ _ (dropWhile_suffix wsp (l.dropWhile wsp).reverse)

lemma dropWhile_head_false (p : Char → Bool) (l : List Char) (c : Char) (cs : List Char)
    (h : l.dropWhile p = c :: cs) : p c = false := by
  induction l with
  | nil => simp at h
  | cons a rest ih =>
      by_cases ha : p a
      · rw [List.dropWhile_cons, if_pos ha] at h
        exact ih h
      · rw [List.dropWhile_cons, if_neg ha] at h
        cases h
        exact Bool.of_not_eq_true ha

lemma trimChars_head_false (l : List Char) (c : Char) (cs : List Char)
    (h : trimChars l = c :: cs) : wsp c = false := by
  obtain ⟨t, ht⟩ := trimChars_pfx_dropWhile l
  rw [h] at ht
  exact dropWhile_head_false wsp l c (cs ++ t) ht.symm

lemma dropWhile_trimChars (l : List Char) : (trimChars l).dropWhile wsp = trimChars l := by
  cases h : trimChars l with
  | nil => rfl
  | cons c cs => rw [List.dropWhile_cons, if_neg (by simp [trimChars_head_false l c cs h])]

lemma trimChars_idem (l : List Char) : trimChars (trimChars l) = trimChars l := by
  conv_lhs => rw [show trimChars (trimChars l) =
    (((trimChars l).dropWhile wsp).reverse.dropWhile wsp).reverse from rfl]
  rw [dropWhile_trimChars]
  show (((l.dropWhile wsp).reverse.dropWhile wsp).reverse.reverse.dropWhile wsp).reverse = _
  rw [List.reverse_reverse, dropWhile_idem]
  rfl

lemma mem_lineTokens (v : String) (p : List Char) (hp : p ∈ lineTokens v) :
    trimChars p = p ∧ p ≠ [] ∧ ',' ∉ p := by
  unfold lineTokens at hp
  have h1 := List.mem_filter.mp hp
  obtain ⟨t, ht, hteq⟩ := List.mem_map.mp h1.1
  refine ⟨?_, ?_, ?_⟩
  · rw [← hteq]; exact trimChars_idem t
  · have := h1.2
    simpa using this
  · intro hc
    rw [← hteq] at hc
    exact (splitOnComma_no_comma v.toList t ht) (mem_trimChars hc)

lemma tokens_of_clean_parts (parts : List (List Char)) (hne : parts ≠ [])
    (hclean : ∀ p ∈ parts, trimChars p = p ∧ p ≠ [] ∧ ',' ∉ p) :
    lineTokens (String.mk (intercalateComma parts)) = parts := by
  unfold lineTokens
  rw [show (String.mk (intercalateComma parts)).toList = intercalateComma parts from rfl]
  rw [splitOnComma_intercalate parts hne (fun p hp => (hclean p hp).2.2)]
  rw [List.map_congr_left (fun p hp => (hclean p hp).1)]
  rw [List.map_id']
  exact List.filter_eq_self.mpr (fun p hp => by simp [(hclean p hp).2.1])

lemma lineTokens_intercalate (v : String) (hne : lineTokens v ≠ []) :
    lineTokens (String.mk (intercalateComma (lineTokens v))) = lineTokens v :=
  tokens_of_clean_parts (lineTokens v) hne (mem_lineTokens v)

lemma mapIntTokens_total (ps : List (List Char))
    (h : ∀ p ∈ ps, (pyIntTok p).isSome = true) : ∃ ls, mapIntTokens ps = some ls := by
  induction ps with
  | nil => exact ⟨[], rfl⟩
  | cons q qs ih =>
      obtain ⟨ls, hls⟩ := ih (fun p hp => h p (List.mem_cons_of_mem q hp))
      have hq := h q (List.mem_cons_self q qs)
      cases ho : pyIntTok q
      · rw [ho] at hq; simp at hq
      case some n =>
          refine ⟨n :: ls, ?_⟩
          unfold mapIntTokens
          rw [ho, hls]

lemma validate_lines_ok_tokenInts (v w : String) (h : validate_lines v = .ok w) :
    ∃ ls, tokenInts w = some ls := by
  obtain ⟨hne, hall, hw⟩ := validate_lines_ok v w h
  obtain ⟨ls, hls⟩ := mapIntTokens_total (lineTokens v) hall
  refine ⟨ls, ?_⟩
  rw [hw]
  unfold tokenInts
  rw [lineTokens_intercalate v hne]
  exact hls

lemma mapIntTokens_all_isSome (ps : List (List Char)) (ls : List ℤ)
    (h : mapIntTokens ps = some ls) : ∀ p ∈ ps, (pyIntTok p).isSome = true := by
  induction ps generalizing ls with
  | nil => intro p hp; simp at hp
  | cons q qs ih =>
      intro p hp
      unfold mapIntTokens at h
      cases hq : pyIntTok q <;> rw [hq] at h
      · simp at h
      · cases hqs : mapIntTokens qs <;> rw [hqs] at h
        · simp at h
        · rcases List.mem_cons.mp hp with h1 | h1
          · rw [h1, hq]; rfl
          · exact ih _ hqs p h1

/-! ### Digit and month rendering lemmas (for the date round-trip) -/

lemma digitChar_facts (k : ℕ) (hk : k ≤ 9) :
    (digitChar k).isDigit = true ∧ (digitChar k).toUpper = digitChar k ∧
      digitVal (digitChar k) = k ∧ digitChar k ≠ ' ' := by
  interval_cases k <;> exact ⟨by decide, by decide, by decide, by decide⟩

lemma daysInMonth_le_31 (y m : ℕ) : daysInMonth y m ≤ 31 := by
  unfold daysInMonth
  split_ifs <;> omega

lemma parseDay_fmt (day : ℕ) (h1 : 1 ≤ day) (h2 : day ≤ 31) (rest : List Char) :
    parseDay (fmtDay2 day ++ rest) = some (day, rest) := by
  obtain ⟨hd1, _, hv1, hsp1⟩ := digitChar_facts (day / 10) (by omega)
  obtain ⟨hd2, _, hv2, _⟩ := digitChar_facts (day % 10) (by omega)
  show parseDay (digitChar (day / 10) :: digitChar (day % 10) :: rest) = _
  simp only [parseDay, hsp1, hd1, hd2, if_true, if_false, ite_false, hv1, hv2]
  rw [show day / 10 * 10 + day % 10 = day from by omega]
  rw [if_pos ⟨h1, h2⟩]

lemma parseMonth_upper (m : ℕ) (h1 : 1 ≤ m) (h2 : m ≤ 12) (rest : List Char) :
    parseMonth (monthUpperChars m ++ rest) = some (m, rest) := by
  obtain ⟨a, b, c, heq, hm⟩ :
      ∃ a b c, monthUpperChars m = [a, b, c] ∧ matchMonth a b c = some m := by
    interval_cases m <;> exact ⟨_, _, _, rfl, by decide⟩
  rw [heq]
  show (matchMonth a b c).map (fun x => (x, rest)) = some (m, rest)
  rw [hm]
  rfl

lemma fmtYear_digits (y : ℕ) (h1 : 1000 ≤ y) :
    fmtYear y = [digitChar (y / 1000 % 10), digitChar (y / 100 % 10), digitChar (y / 10 % 10),
      digitChar (y % 10)] := by
  unfold fmtYear
  rw [if_neg (by omega), if_neg (by omega), if_neg (by omega)]

lemma parseYear4_fmt (y : ℕ) (h1 : 1000 ≤ y) (h2 : y ≤ 9999) (rest : List Char) :
    parseYear4 (fmtYear y ++ rest) = some (y, rest) := by
  rw [fmtYear_digits y h1]
  obtain ⟨ha, _, hva, _⟩ := digitChar_facts (y / 1000 % 10) (by omega)
  obtain ⟨hb, _, hvb, _⟩ := digitChar_facts (y / 100 % 10) (by omega)
  obtain ⟨hc, _, hvc, _⟩ := digitChar_facts (y / 10 % 10) (by omega)
  obtain ⟨hd, _, hvd, _⟩ := digitChar_facts (y % 10) (by omega)
  show parseYear4 (digitChar (y / 1000 % 10) :: digitChar (y / 100 % 10) ::
    digitChar (y / 10 % 10) :: digitChar (y % 10) :: rest) = _
  simp only [parseYear4, ha, hb, hc, hd, Bool.and_self, if_true, hva, hvb, hvc, hvd]
  rw [show y / 1000 % 10 * 1000 + y / 100 % 10 * 100 + y / 10 % 10 * 10 + y % 10 = y from by
    omega]

lemma monthTitle_toUpper (m : ℕ) (h1 : 1 ≤ m) (h2 : m ≤ 12) :
    (monthTitleChars m).map Char.toUpper = monthUpperChars m := by
  interval_cases m <;> decide

lemma monthUpper_toUpper (m : ℕ) (h1 : 1 ≤ m) (h2 : m ≤ 12) :
    (monthUpperChars m).map Char.toUpper = monthUpperChars m := by
  interval_cases m <;> decide

lemma monthTitle_ne_upper (m : ℕ) (h1 : 1 ≤ m) (h2 : m ≤ 12) :
    monthTitleChars m ≠ monthUpperChars m := by
  interval_cases m <;> decide

lemma toList_canonUpper (d : PyDate) :
    (canonUpper d).toList = fmtDay2 d.day ++ (monthUpperChars d.month ++ fmtYear d.year) := by
  show fmtDay2 d.day ++ monthUpperChars d.month ++ fmtYear d.year = _
  rw [List.append_assoc]

lemma map_toUpper_fmtDay2 (day : ℕ) (h2 : day ≤ 31) :
    (fmtDay2 day).map Char.toUpper = fmtDay2 day := by
  obtain ⟨_, hu1, _, _⟩ := digitChar_facts (day / 10) (by omega)
  obtain ⟨_, hu2, _, _⟩ := digitChar_facts (day % 10) (by omega)
  simp [fmtDay2, hu1, hu2]

lemma map_toUpper_fmtYear (y : ℕ) (h1 : 1000 ≤ y) (h2 : y ≤ 9999) :
    (fmtYear y).map Char.toUpper = fmtYear y := by
  rw [fmtYear_digits y h1]
  obtain ⟨_, hua, _, _⟩ := digitChar_facts (y / 1000 % 10) (by omega)
  obtain ⟨_, hub, _, _⟩ := digitChar_facts (y / 100 % 10) (by omega)
  obtain ⟨_, huc, _, _⟩ := digitChar_facts (y / 10 % 10) (by omega)
  obtain ⟨_, hud, _, _⟩ := digitChar_facts (y % 10) (by omega)
  simp [hua, hub, huc, hud]

lemma pyUpper_canonUpper (d : PyDate) (hm1 : 1 ≤ d.month) (hm2 : d.month ≤ 12)
    (hd2 : d.day ≤ 31) (hy1 : 1000 ≤ d.year) (hy2 : d.year ≤ 9999) :
    pyUpper (canonUpper d) = canonUpper d := by
  unfold pyUpper
  rw [toList_canonUpper]
  rw [List.map_append, List.map_append]
  rw [map_toUpper_fmtDay2 d.day hd2, monthUpper_toUpper d.month hm1 hm2,
    map_toUpper_fmtYear d.year hy1 hy2]
  rw [show canonUpper d = String.mk ((canonUpper d).toList) from rfl, toList_canonUpper]

lemma parseYear4_fmt_nil (y : ℕ) (h1 : 1000 ≤ y) (h2 : y ≤ 9999) :
    parseYear4 (fmtYear y) = some (y, []) := by
  have := parseYear4_fmt y h1 h2 []
  rwa [List.append_nil] at this

lemma strptime_canonUpper (d : PyDate) (hm1 : 1 ≤ d.month) (hm2 : d.month ≤ 12)
    (hd1 : 1 ≤ d.day) (hd2 : d.day ≤ daysInMonth d.year d.month)
    (hy1 : 1000 ≤ d.year) (hy2 : d.year ≤ 9999) :
    strptimeDDMMMYYYY (canonUpper d) = some d := by
  have hd31 : d.day ≤ 31 := le_trans hd2 (daysInMonth_le_31 d.year d.month)
  unfold strptimeDDMMMYYYY
  rw [toList_canonUpper]
  simp only [parseDay_fmt d.day hd1 hd31, parseMonth_upper d.month hm1 hm2,
    parseYear4_fmt_nil d.year hy1 hy2]
  rw [if_pos ⟨trivial, by omega, hd2⟩]

lemma map_toUpper_strftime (d : PyDate) (hm1 : 1 ≤ d.month) (hm2 : d.month ≤ 12)
    (hd2 : d.day ≤ 31) (hy1 : 1000 ≤ d.year) (hy2 : d.year ≤ 9999) :
    (strftimeDDMMMYYYY d).toList.map Char.toUpper = (canonUpper d).toList := by
  rw [toList_canonUpper]
  show ((fmtDay2 d.day ++ monthTitleChars d.month ++ fmtYear d.year).map Char.toUpper) = _
  rw [List.append_assoc, List.map_append, List.map_append]
  rw [map_toUpper_fmtDay2 d.day hd2, monthTitle_toUpper d.month hm1 hm2,
    map_toUpper_fmtYear d.year hy1 hy2]

lemma strftime_ne_canonUpper (d : PyDate) (hm1 : 1 ≤ d.month) (hm2 : d.month ≤ 12) :
    strftimeDDMMMYYYY d ≠ canonUpper d := by
  intro h
  have hl : fmtDay2 d.day ++ monthTitleChars d.month ++ fmtYear d.year =
      fmtDay2 d.day ++ monthUpperChars d.month ++ fmtYear d.year := congrArg String.toList h
  rw [List.append_assoc, List.append_assoc] at hl
  have h2 := List.append_cancel_left hl
  have h3 := List.append_cancel_right h2
  exact monthTitle_ne_upper d.month hm1 hm2 h3

/-! ### Claim theorems -/

/-- C1 (amended): for **every** request accepted by the validator, the
handler's internal parses succeed and the response has exactly one row per
parsed line number, in input order, where row `i` is exactly `rowSpec` at
index `i`: its `VALUE` is `round(base_i * (1 + line_i/100), 2)` with
`base_i` the `i`-th base draw of the generator seeded at the start of the
request; with a `to_date`, `PREV_VALUE` is `round(VALUE * f_i, 2)` with
`f_i` the `i`-th factor draw, and `DELTA` is `round(VALUE - PREV_VALUE, 2)`
**except** that `DELTA` is the empty string when `PREV_VALUE` equals 0 (the
code tests Python truthiness of `value_prev`, not only `None`-ness; see the
counterexample); without a `to_date`, `PREV_VALUE` and `DELTA` are the
empty string. -/
theorem c1_rows_formula {σ : Type} (u : Uniform σ) (mtSeed : ℕ → σ) (raw : RawRun)
    (p : RunRequest) (st : σ) (hval : validateRequest raw = .ok p) :
    ∃ rd prevOpt ls resp endSt,
      strptimeDDMMMYYYY p.from_date = some rd ∧
      parse_prev p.to_date = some prevOpt ∧
      tokenInts p.lines = some ls ∧
      handle_run u mtSeed raw st = (.ok resp, endSt) ∧
      resp.rows.length = ls.length ∧
      ∀ (i : ℕ) (hi : i < ls.length),
        resp.rows[i]? = some (rowSpec u prevOpt.isSome (mtSeed 42) p.country
          (strftimeDDMMMYYYY rd) (pdString prevOpt) (ls.get ⟨i, hi⟩) i) := by
  obtain ⟨hfd, htd, hls, hco⟩ := validateRequest_ok_fields raw p hval
  obtain ⟨rd, h1⟩ := validate_from_date_ok raw.from_date p.from_date hfd
  obtain ⟨prevOpt, h2⟩ := validate_to_date_ok raw.to_date p.to_date htd
  obtain ⟨ls, h3⟩ := validate_lines_ok_tokenInts raw.lines p.lines hls
  have hhandle : handle_run u mtSeed raw st =
      (.ok ⟨(genRows u prevOpt.isSome p.country (strftimeDDMMMYYYY rd)
          (pdString prevOpt) ls (mtSeed 42)).1⟩,
        (genRows u prevOpt.isSome p.country (strftimeDDMMMYYYY rd)
          (pdString prevOpt) ls (mtSeed 42)).2) := by
    unfold handle_run
    rw [hval]
    exact run_job_ok u mtSeed p st rd prevOpt ls h1 h2 h3
  exact ⟨rd, prevOpt, ls, _, _, h1, h2, h3, hhandle,
    genRows_length u prevOpt.isSome p.country (strftimeDDMMMYYYY rd)
      (pdString prevOpt) ls (mtSeed 42),
    fun i hi => genRows_get? u prevOpt.isSome p.country (strftimeDDMMMYYYY rd)
      (pdString prevOpt) ls (mtSeed 42) i hi⟩

/-- C1 witness: the theorem applied to the concrete request
`from_date=31AUG2019, to_date=31JUL2019, lines=6, country=SG` (validated by
computation) and the degenerate generator. -/
theorem c1_witness :
    ∃ rd prevOpt ls resp endSt,
      strptimeDDMMMYYYY "31AUG2019" = some rd ∧
      parse_prev (some "31JUL2019") = some prevOpt ∧
      tokenInts "6" = some ls ∧
      handle_run uU seedU ⟨"31AUG2019", some "31JUL2019", "6", "SG"⟩ () =
        (.ok resp, endSt) ∧
      resp.rows.length = ls.length ∧
      ∀ (i : ℕ) (hi : i < ls.length),
        resp.rows[i]? = some (rowSpec uU prevOpt.isSome (seedU 42) "SG"
          (strftimeDDMMMYYYY rd) (pdString prevOpt) (ls.get ⟨i, hi⟩) i) :=
  c1_rows_formula uU seedU ⟨"31AUG2019", some "31JUL2019", "6", "SG"⟩
    ⟨"31AUG2019", some "31JUL2019", "6", "SG"⟩ () (by decide)

/-- C1 counterexample: with `to_date` supplied and line number −100 the
base value is multiplied by `1 + (−100)/100 = 0`, so `VALUE = 0.0` and
`PREV_VALUE = 0.0`; the code then leaves `DELTA` as the empty string
(`if value_prev` is false for `0.0`), whereas the claim as stated demands
`DELTA = round(VALUE − PREV_VALUE, 2) = 0.0`. -/
theorem c1_counterexample :
    (∃ resp endSt,
      handle_run uU seedU ⟨"31AUG2019", some "31JUL2019", "-100", "SG"⟩ () =
        (.ok resp, endSt) ∧
      resp.rows.map (fun r => (r.VALUE, r.PREV_VALUE, r.DELTA)) =
        [((0 : ℚ), JVal.num 0, JVal.str "")]) ∧
    JVal.str "" ≠ JVal.num (round2 ((0 : ℚ) - 0)) := by
  constructor
  · refine ⟨⟨[⟨"SG", -100, "31Aug2019", "31Jul2019", 0, JVal.num 0, JVal.str ""⟩]⟩, (),
      ?_, ?_⟩
    · with_unfolding_all rfl
    · rfl
  · simp

/-- C2: `POST /run` is deterministic across calls: the handler re-seeds the
generator with the fixed seed 42 before drawing, so the response is
independent of the generator state earlier requests left behind; two calls
with identical payloads (same `from_date`, `to_date`, `lines`, `country`)
therefore return identical responses — in particular identical `VALUE`s. -/
theorem c2_run_deterministic {σ : Type} (u : Uniform σ) (mtSeed : ℕ → σ) (r : RawRun)
    (st st' : σ) :
    (handle_run u mtSeed r st).1 = (handle_run u mtSeed r st').1 := by
  unfold handle_run
  cases hv : validateRequest r with
  | error m => rfl
  | ok p =>
      show (run_job u mtSeed p st).1 = (run_job u mtSeed p st').1
      cases h1 : strptimeDDMMMYYYY p.from_date with
      | none => rw [run_job_err_from u mtSeed p st h1, run_job_err_from u mtSeed p st' h1]
      | some rd =>
          cases h2 : parse_prev p.to_date with
          | none =>
              rw [run_job_err_prev u mtSeed p st rd h1 h2,
                run_job_err_prev u mtSeed p st' rd h1 h2]
          | some po =>
              cases h3 : tokenInts p.lines with
              | none =>
                  rw [run_job_err_lines u mtSeed p st rd po h1 h2 h3,
                    run_job_err_lines u mtSeed p st' rd po h1 h2 h3]
              | some ls =>
                  rw [run_job_ok u mtSeed p st rd po ls h1 h2 h3,
                    run_job_ok u mtSeed p st' rd po ls h1 h2 h3]

/-- C3: `POST /run` with `from_date=31AUG2019, lines=6,17, country=SG` and
no `to_date` succeeds with exactly two rows, for lines 6 and 17 in that
order, each with empty `PREV_DATE`, `PREV_VALUE` and `DELTA`. -/
theorem c3_concrete_no_to_date {σ : Type} (u : Uniform σ) (mtSeed : ℕ → σ) (st : σ) :
    ∃ resp : RunResponse,
      (handle_run u mtSeed ⟨"31AUG2019", none, "6,17", "SG"⟩ st).1 = .ok resp ∧
      resp.rows.length = 2 ∧
      resp.rows.map (fun r => r.LINE) = [6, 17] ∧
      ∀ r ∈ resp.rows, r.PREV_DATE = "" ∧ r.PREV_VALUE = JVal.str "" ∧
        r.DELTA = JVal.str "" := by
  have hv : validateRequest ⟨"31AUG2019", none, "6,17", "SG"⟩ =
      .ok ⟨"31AUG2019", none, "6,17", "SG"⟩ := by decide
  have hhandle : (handle_run u mtSeed ⟨"31AUG2019", none, "6,17", "SG"⟩ st).1 =
      .ok ⟨(genRows u (none : Option PyDate).isSome "SG"
        (strftimeDDMMMYYYY ⟨2019, 8, 31⟩) (pdString none) [6, 17] (mtSeed 42)).1⟩ := by
    unfold handle_run
    rw [hv]
    show (run_job u mtSeed ⟨"31AUG2019", none, "6,17", "SG"⟩ st).1 = _
    rw [run_job_ok u mtSeed ⟨"31AUG2019", none, "6,17", "SG"⟩ st ⟨2019, 8, 31⟩ none [6, 17]
      (by decide) (by decide) (by decide)]
  refine ⟨_, hhandle, ?_, ?_, ?_⟩
  · rw [show (⟨(genRows u (none : Option PyDate).isSome "SG"
      (strftimeDDMMMYYYY ⟨2019, 8, 31⟩) (pdString none) [6, 17] (mtSeed 42)).1⟩ :
        RunResponse).rows = (genRows u (none : Option PyDate).isSome "SG"
      (strftimeDDMMMYYYY ⟨2019, 8, 31⟩) (pdString none) [6, 17] (mtSeed 42)).1 from rfl]
    rw [genRows_length]
    rfl
  · exact genRows_map_LINE u _ _ _ _ [6, 17] (mtSeed 42)
  · intro r hr
    have hr' : r ∈ (genRows u false "SG" (strftimeDDMMMYYYY ⟨2019, 8, 31⟩) (pdString none)
        [6, 17] (mtSeed 42)).1 := hr
    have h1 := genRows_PREV_DATE u false "SG" (strftimeDDMMMYYYY ⟨2019, 8, 31⟩) (pdString none)
      [6, 17] (mtSeed 42) r hr'
    have h2 := genRows_no_prev u "SG" (strftimeDDMMMYYYY ⟨2019, 8, 31⟩) (pdString none)
      [6, 17] (mtSeed 42) r hr'
    exact ⟨h1, h2.1, h2.2⟩

/-- C2 witness: determinism instantiated at a concrete generator, payload
and pair of prior states. -/
theorem c2_witness :
    (handle_run uU seedU ⟨"31AUG2019", some "31JUL2019", "6,17", "SG"⟩ ()).1 =
      (handle_run uU seedU ⟨"31AUG2019", some "31JUL2019", "6,17", "SG"⟩ ()).1 :=
  c2_run_deterministic uU seedU ⟨"31AUG2019", some "31JUL2019", "6,17", "SG"⟩ () ()

/-- C3 witness: the concrete-request theorem instantiated at the degenerate
generator. -/
theorem c3_witness :
    ∃ resp : RunResponse,
      (handle_run uU seedU ⟨"31AUG2019", none, "6,17", "SG"⟩ ()).1 = .ok resp ∧
      resp.rows.length = 2 ∧
      resp.rows.map (fun r => r.LINE) = [6, 17] ∧
      ∀ r ∈ resp.rows, r.PREV_DATE = "" ∧ r.PREV_VALUE = JVal.str "" ∧
        r.DELTA = JVal.str "" :=
  c3_concrete_no_to_date uU seedU ()

/-- C4 counterexample: the claim says the `REPORT_DATE` field equals the
uppercase of the submitted string. For the accepted string 31AUG2019 the
code re-formats the parsed date with `strftime("%d%b%Y")`, whose `%b` is the
title-case C-locale abbreviation: the field is 31Aug2019, not 31AUG2019. -/
theorem c4_counterexample :
    (∃ resp endSt, handle_run uU seedU ⟨"31AUG2019", none, "6", "SG"⟩ () = (.ok resp, endSt) ∧
      resp.rows.map (fun r => r.REPORT_DATE) = ["31Aug2019"]) ∧
    ("31Aug2019" : String) ≠ pyUpper "31AUG2019" := by
  constructor
  · refine ⟨⟨[⟨"SG", 6, "31Aug2019", "", 1060, JVal.str "", JVal.str ""⟩]⟩, (), ?_, ?_⟩
    · with_unfolding_all rfl
    · rfl
  · decide

/-- C4 (amended): parsing round-trips only up to letter case. For every
valid date in the canonical 9-character form (two day digits, three month
letters, four year digits, year ≥ 1000): the validator accepts the
uppercase string and returns it unchanged; `strptime` recovers the date;
re-formatting with `strftime("%d%b%Y")` yields the same string with the
month abbreviation in title case — character-wise uppercasing the field
recovers the uppercase input, but the field itself is never equal to it. -/
theorem c4_roundtrip_amended (d : PyDate) (hm1 : 1 ≤ d.month) (hm2 : d.month ≤ 12)
    (hd1 : 1 ≤ d.day) (hd2 : d.day ≤ daysInMonth d.year d.month)
    (hy1 : 1000 ≤ d.year) (hy2 : d.year ≤ 9999) :
    validate_from_date (canonUpper d) = .ok (canonUpper d) ∧
    strptimeDDMMMYYYY (canonUpper d) = some d ∧
    (strftimeDDMMMYYYY d).toList.map Char.toUpper = (canonUpper d).toList ∧
    strftimeDDMMMYYYY d ≠ canonUpper d := by
  have hd31 : d.day ≤ 31 := le_trans hd2 (daysInMonth_le_31 d.year d.month)
  have hparse := strptime_canonUpper d hm1 hm2 hd1 hd2 hy1 hy2
  refine ⟨?_, hparse, map_toUpper_strftime d hm1 hm2 hd31 hy1 hy2,
    strftime_ne_canonUpper d hm1 hm2⟩
  unfold validate_from_date
  rw [pyUpper_canonUpper d hm1 hm2 hd31 hy1 hy2, hparse]

/-- C4 witness: the amended round-trip at the concrete date 31 August
2019. -/
theorem c4_witness :
    validate_from_date (canonUpper ⟨2019, 8, 31⟩) = .ok (canonUpper ⟨2019, 8, 31⟩) ∧
    strptimeDDMMMYYYY (canonUpper ⟨2019, 8, 31⟩) = some ⟨2019, 8, 31⟩ ∧
    (strftimeDDMMMYYYY ⟨2019, 8, 31⟩).toList.map Char.toUpper =
      (canonUpper ⟨2019, 8, 31⟩).toList ∧
    strftimeDDMMMYYYY ⟨2019, 8, 31⟩ ≠ canonUpper ⟨2019, 8, 31⟩ :=
  c4_roundtrip_amended ⟨2019, 8, 31⟩ (by decide) (by decide) (by decide) (by decide)
    (by decide) (by decide)

/-- C5 counterexample: the claim quantifies over every `lines` string
*containing* at least one valid integer token. The string 6,x contains the
valid token 6, yet validation fails, because the code requires *every*
token to be an integer literal. -/
theorem c5_counterexample :
    (∃ p ∈ lineTokens "6,x", (pyIntTok p).isSome = true) ∧
    validate_lines "6,x" = .error msg_lines :=
  ⟨by decide, by decide⟩

/-- C5 (amended): for every `lines` string with at least one token and
*all* tokens valid integer literals, validation succeeds, the validated
value joins the stripped tokens with commas in input order, and the rows of
a `/run` request using this `lines` value carry exactly the parsed integers
as `LINE`, in the same order. -/
theorem c5_lines_order {σ : Type} (u : Uniform σ) (mtSeed : ℕ → σ) (st : σ) (v : String)
    (ls : List ℤ) (hne : lineTokens v ≠ []) (hints : tokenInts v = some ls) :
    validate_lines v = .ok (String.mk (intercalateComma (lineTokens v))) ∧
    ∃ resp endSt, handle_run u mtSeed ⟨"31AUG2019", none, v, "SG"⟩ st = (.ok resp, endSt) ∧
      resp.rows.map (fun r => r.LINE) = ls := by
  have hall := mapIntTokens_all_isSome (lineTokens v) ls hints
  have hvl : validate_lines v = .ok (String.mk (intercalateComma (lineTokens v))) := by
    unfold validate_lines
    rw [if_neg (by simp [hne])]
    rw [if_neg ?hany]
    case hany =>
      intro hc
      obtain ⟨p, hp, hnone⟩ := List.any_eq_true.mp hc
      rw [Option.isNone_iff_eq_none] at hnone
      have := hall p hp
      rw [hnone] at this
      simp at this
  have hw : tokenInts (String.mk (intercalateComma (lineTokens v))) = some ls := by
    unfold tokenInts
    rw [lineTokens_intercalate v hne]
    exact hints
  have hv : validateRequest ⟨"31AUG2019", none, v, "SG"⟩ =
      .ok ⟨"31AUG2019", none, String.mk (intercalateComma (lineTokens v)), "SG"⟩ := by
    unfold validateRequest
    rw [show validate_from_date "31AUG2019" = .ok "31AUG2019" from by decide]
    rw [show validate_to_date none = .ok none from rfl]
    rw [hvl]
    rw [show validate_country "SG" = .ok "SG" from by decide]
  have hhandle : handle_run u mtSeed ⟨"31AUG2019", none, v, "SG"⟩ st =
      (.ok ⟨(genRows u (none : Option PyDate).isSome "SG"
          (strftimeDDMMMYYYY ⟨2019, 8, 31⟩) (pdString none) ls (mtSeed 42)).1⟩,
        (genRows u (none : Option PyDate).isSome "SG"
          (strftimeDDMMMYYYY ⟨2019, 8, 31⟩) (pdString none) ls (mtSeed 42)).2) := by
    unfold handle_run
    rw [hv]
    have hfd : strptimeDDMMMYYYY "31AUG2019" = some ⟨2019, 8, 31⟩ := by decide
    have hpp : parse_prev (none : Option String) = some none := rfl
    exact run_job_ok u mtSeed _ st ⟨2019, 8, 31⟩ none ls hfd hpp hw
  exact ⟨hvl, _, _, hhandle,
    genRows_map_LINE u (none : Option PyDate).isSome "SG"
      (strftimeDDMMMYYYY ⟨2019, 8, 31⟩) (pdString none) ls (mtSeed 42)⟩

/-- C5 witness: the amended theorem at `lines = "6,17"`. -/
theorem c5_witness :
    validate_lines "6,17" = .ok (String.mk (intercalateComma (lineTokens "6,17"))) ∧
    ∃ resp endSt, handle_run uU seedU ⟨"31AUG2019", none, "6,17", "SG"⟩ () =
        (.ok resp, endSt) ∧
      resp.rows.map (fun r => r.LINE) = [6, 17] :=
  c5_lines_order uU seedU () "6,17" [6, 17] (by decide) (by decide)

/-- C6: for every `lines` string that is empty (no non-blank token) or
contains a non-numeric token, the field validator fails with the fixed
descriptive message, and a `/run` request carrying it is rejected before
any row generation: the generator state is untouched and no success
response is possible, whatever the other fields are. -/
theorem c6_lines_rejected {σ : Type} (u : Uniform σ) (mtSeed : ℕ → σ) (st : σ)
    (fd : String) (td : Option String) (co : String) (v : String)
    (hbad : lineTokens v = [] ∨ ∃ p ∈ lineTokens v, pyIntTok p = none) :
    validate_lines v = .error msg_lines ∧
    (handle_run u mtSeed ⟨fd, td, v, co⟩ st).2 = st ∧
    ∀ resp endSt, handle_run u mtSeed ⟨fd, td, v, co⟩ st ≠ (.ok resp, endSt) := by
  have hlin : validate_lines v = .error msg_lines := by
    unfold validate_lines
    rcases hbad with h | ⟨p, hp, hnone⟩
    · rw [if_pos (by simp [h])]
    · have hany : (lineTokens v).any (fun p => (pyIntTok p).isNone) = true :=
        List.any_eq_true.mpr ⟨p, hp, by simp [hnone]⟩
      by_cases he : (lineTokens v).isEmpty
      · rw [if_pos he]
      · rw [if_neg he, if_pos hany]
  obtain ⟨m2, hv⟩ := validateRequest_lines_error ⟨fd, td, v, co⟩ msg_lines hlin
  refine ⟨hlin, ?_, ?_⟩
  · unfold handle_run
    rw [hv]
  · intro resp endSt heq
    unfold handle_run at heq
    rw [hv] at heq
    have := congrArg Prod.fst heq
    simp at this

/-- C6 witness: the theorem at `lines = "6,x"` (non-numeric token) with the
other fields valid. -/
theorem c6_witness :
    validate_lines "6,x" = .error msg_lines ∧
    (handle_run uU seedU ⟨"31AUG2019", none, "6,x", "SG"⟩ ()).2 = () ∧
    ∀ resp endSt, handle_run uU seedU ⟨"31AUG2019", none, "6,x", "SG"⟩ () ≠
      (.ok resp, endSt) :=
  c6_lines_rejected uU seedU () "31AUG2019" none "SG" "6,x" (Or.inr (by decide))

/-- C7 counterexample: the claim quantifies over the *input* string's
length. The input " sg " has length 4, outside {2,3}, yet validation
succeeds, because the code strips whitespace first; moreover the validated
value SG is the uppercase of the *stripped* input, not of the input. -/
theorem c7_counterexample :
    validate_country " sg " = .ok "SG" ∧
    (" sg " : String).length = 4 ∧
    ¬((" sg " : String).length = 2 ∨ (" sg " : String).length = 3) ∧
    ("SG" : String) ≠ pyUpper " sg " :=
  ⟨by decide, by decide, by decide, by decide⟩

/-- C7 (amended): the length test applies to the whitespace-stripped input:
if the stripped input has length 2 or 3 the validator accepts and returns
its character-wise uppercase, otherwise (length 0, 1, or ≥ 4 after
stripping) it fails. -/
theorem c7_country_length (v : String) :
    (((trimChars v.toList).length = 2 ∨ (trimChars v.toList).length = 3) →
      validate_country v = .ok (String.mk ((trimChars v.toList).map Char.toUpper))) ∧
    (¬((trimChars v.toList).length = 2 ∨ (trimChars v.toList).length = 3) →
      validate_country v = .error msg_country) := by
  constructor
  · intro h
    unfold validate_country
    rw [if_neg ?hcond]
    case hcond =>
      intro hc
      rcases Bool.or_eq_true_iff.mp hc with hc | hc
      · have h0 : (trimChars v.toList).length = 0 := by
          have := congrArg List.length (List.isEmpty_iff.mp hc)
          simpa using this
        rcases h with h2 | h2 <;> omega
      · obtain ⟨hc2, hc3⟩ := Bool.and_eq_true_iff.mp hc
        rw [bne_iff_ne, List.length_map] at hc2 hc3
        tauto
  · intro h
    unfold validate_country
    rw [if_pos ?hcond]
    case hcond =>
      rw [Bool.or_eq_true_iff]
      right
      rw [Bool.and_eq_true_iff, bne_iff_ne, bne_iff_ne, List.length_map]
      tauto

/-- C7 witness: the amended theorem at the inputs " sg " (accepted after
stripping) and "sgpp" (rejected). -/
theorem c7_witness :
    validate_country " sg " =
      .ok (String.mk ((trimChars (" sg " : String).toList).map Char.toUpper)) ∧
    validate_country "sgpp" = .error msg_country :=
  ⟨(c7_country_length " sg ").1 (by decide), (c7_country_length "sgpp").2 (by decide)⟩

/-- C8 counterexample: a request whose body fails validation is answered
with HTTP 422 (FastAPI's default handling of a pydantic
`RequestValidationError`), not 400: the handler's own
`HTTPException(status_code=400)` is never reached by validation failures. -/
theorem c8_counterexample :
    (handle_run uU seedU ⟨"notadate", none, "6", "SG"⟩ ()).1 = .error (422, msg_from_date) ∧
    (422 : ℕ) ≠ 400 :=
  ⟨by decide, by decide⟩

/-- C8 (amended): every `/run` request whose body fails validation is
answered with a client-error response — HTTP 422 carrying the failing
validator's human-readable message (one of the four fixed non-empty
messages) — and never with a success response. -/
theorem c8_validation_422 {σ : Type} (u : Uniform σ) (mtSeed : ℕ → σ) (st : σ) (r : RawRun)
    (m : String) (hv : validateRequest r = .error m) :
    (handle_run u mtSeed r st).1 = .error (422, m) ∧
    (m = msg_from_date ∨ m = msg_to_date ∨ m = msg_lines ∨ m = msg_country) ∧
    m ≠ "" ∧
    ∀ resp, (handle_run u mtSeed r st).1 ≠ .ok resp := by
  have hmsg := validateRequest_error_msg r m hv
  have h1 : (handle_run u mtSeed r st).1 = .error (422, m) := by
    unfold handle_run
    rw [hv]
  refine ⟨h1, hmsg, ?_, ?_⟩
  · rcases hmsg with h | h | h | h <;> rw [h] <;> decide
  · intro resp
    rw [h1]
    simp

/-- C8 witness: the amended theorem at the concrete invalid body
`from_date = "notadate"`. -/
theorem c8_witness :
    (handle_run uU seedU ⟨"notadate", none, "6", "SG"⟩ ()).1 = .error (422, msg_from_date) ∧
    msg_from_date ≠ "" := by
  have h := c8_validation_422 uU seedU () ⟨"notadate", none, "6", "SG"⟩ msg_from_date
    (by decide)
  exact ⟨h.1, h.2.2.1⟩

/-- C9: `GET /test` is total — every branch returns the structured status
object. Its `backend` field is always the running banner, `collections` has
at most the first 10 names, `database_url`/`database_name` always report
the environment-variable presence checks (they overwrite anything set
earlier), `connection_status` is one of the two fixed strings, and the
`database` field reports each import/connection outcome — including absence
of the module — as status text rather than by raising. -/
theorem c9_test_endpoint (env : TestEnv) :
    (test_database env).backend = "✅ Running" ∧
    (test_database env).collections.length ≤ 10 ∧
    (test_database env).database_url =
      some (if env.database_url_set then "✅ Set" else "❌ Not Set") ∧
    (test_database env).database_name =
      some (if env.database_name_set then "✅ Set" else "❌ Not Set") ∧
    ((test_database env).connection_status = "Not Connected" ∨
      (test_database env).connection_status = "Connected") ∧
    (env.dbimport = DbImport.importError →
      (test_database env).database =
        "❌ Database module not found (run enable-database first)") ∧
    (∀ msg, env.dbimport = DbImport.otherError msg →
      (test_database env).database = "❌ Error: " ++ String.mk (msg.toList.take 50)) ∧
    (env.dbimport = DbImport.imported none →
      (test_database env).database = "⚠️  Available but not initialized") ∧
    (∀ db, env.dbimport = DbImport.imported (some db) →
      (test_database env).connection_status = "Connected" ∧
      (∀ cols, db.listCollections = .ok cols →
        (test_database env).database = "✅ Connected & Working" ∧
        (test_database env).collections = cols.take 10) ∧
      (∀ e, db.listCollections = .error e →
        (test_database env).database =
          "⚠️  Connected but Error: " ++ String.mk (e.toList.take 50))) := by
  obtain ⟨imp, us, ns⟩ := env
  cases imp with
  | importError =>
      exact ⟨rfl, Nat.zero_le 10, rfl, rfl, Or.inl rfl, fun _ => rfl,
        fun msg h => (by cases h), fun h => (by cases h), fun db h => (by cases h)⟩
  | otherError m =>
      refine ⟨rfl, Nat.zero_le 10, rfl, rfl, Or.inl rfl, fun h => (by cases h),
        fun msg h => ?_, fun h => (by cases h), fun db h => (by cases h)⟩
      cases h
      rfl
  | imported odb =>
      cases odb with
      | none =>
          refine ⟨rfl, Nat.zero_le 10, rfl, rfl, Or.inl rfl, fun h => (by cases h),
            fun msg h => (by cases h), fun h => rfl, fun db h => (by cases h)⟩
      | some db =>
          cases hdb : db.listCollections with
          | ok cols =>
              refine ⟨by simp [test_database, hdb], ?_, by simp [test_database, hdb],
                by simp [test_database, hdb], Or.inr (by simp [test_database, hdb]),
                fun h => (by cases h), fun msg h => (by cases h), fun h => (by cases h),
                fun db2 h => ?_⟩
              · simp only [test_database, hdb]
                rw [List.length_take]
                exact min_le_left _ _
              · cases h
                refine ⟨by simp [test_database, hdb], fun cols2 hc2 => ?_, fun e he2 => ?_⟩
                · rw [hdb] at hc2
                  cases hc2
                  exact ⟨by simp [test_database, hdb], by simp [test_database, hdb]⟩
                · rw [hdb] at he2
                  cases he2
          | error e =>
              refine ⟨by simp [test_database, hdb], ?_, by simp [test_database, hdb],
                by simp [test_database, hdb], Or.inr (by simp [test_database, hdb]),
                fun h => (by cases h), fun msg h => (by cases h), fun h => (by cases h),
                fun db2 h => ?_⟩
              · simp only [test_database, hdb]
                exact Nat.zero_le 10
              · cases h
                refine ⟨by simp [test_database, hdb], fun cols2 hc2 => ?_, fun e2 he2 => ?_⟩
                · rw [hdb] at hc2
                  cases hc2
                · rw [hdb] at he2
                  cases he2
                  exact by simp [test_database, hdb]

/-- C9 witness: the theorem at the concrete environment where the database
module is absent and no environment variables are set. -/
theorem c9_witness :
    (test_database ⟨DbImport.importError, false, false⟩).backend = "✅ Running" ∧
    (test_database ⟨DbImport.importError, false, false⟩).collections.length ≤ 10 ∧
    (test_database ⟨DbImport.importError, false, false⟩).database =
      "❌ Database module not found (run enable-database first)" := by
  have h := c9_test_endpoint ⟨DbImport.importError, false, false⟩
  exact ⟨h.1, h.2.1, h.2.2.2.2.2.1 rfl⟩

/-- C10: an empty-string `to_date` is normalised to `None` by the validator,
so `POST /run` behaves exactly as if `to_date` were absent: the full
response (and generator state) is identical to the no-`to_date` response,
and on success every row has empty `PREV_DATE`, `PREV_VALUE` and `DELTA`. -/
theorem c10_empty_to_date {σ : Type} (u : Uniform σ) (mtSeed : ℕ → σ) (st : σ)
    (fd lsf co : String) :
    handle_run u mtSeed ⟨fd, some "", lsf, co⟩ st =
      handle_run u mtSeed ⟨fd, none, lsf, co⟩ st ∧
    ∀ resp endSt, handle_run u mtSeed ⟨fd, some "", lsf, co⟩ st = (.ok resp, endSt) →
      ∀ r ∈ resp.rows, r.PREV_DATE = "" ∧ r.PREV_VALUE = JVal.str "" ∧
        r.DELTA = JVal.str "" := by
  have heq : handle_run u mtSeed ⟨fd, some "", lsf, co⟩ st =
      handle_run u mtSeed ⟨fd, none, lsf, co⟩ st := rfl
  refine ⟨heq, ?_⟩
  intro resp endSt hok r hr
  rw [heq] at hok
  unfold handle_run at hok
  cases hv : validateRequest ⟨fd, none, lsf, co⟩ <;> rw [hv] at hok
  case error m =>
      have := congrArg Prod.fst hok
      simp at this
  case ok p =>
  have hok2 : run_job u mtSeed p st = (.ok resp, endSt) := hok
  obtain ⟨hfd, htd, hls, hco⟩ := validateRequest_ok_fields _ _ hv
  have hpt : p.to_date = none := by
    have h2 : (Except.ok (none : Option String) : Except String (Option String)) =
        .ok p.to_date := htd
    exact (Except.ok.inj h2).symm
  have hpp : parse_prev p.to_date = some none := by
    rw [hpt]
    decide
  cases h1 : strptimeDDMMMYYYY p.from_date with
  | none =>
      rw [run_job_err_from u mtSeed p st h1] at hok2
      have := congrArg Prod.fst hok2
      simp at this
  | some rd =>
      cases h3 : tokenInts p.lines with
      | none =>
          rw [run_job_err_lines u mtSeed p st rd none h1 hpp h3] at hok2
          have := congrArg Prod.fst hok2
          simp at this
      | some lns =>
          rw [run_job_ok u mtSeed p st rd none lns h1 hpp h3] at hok2
          have hfst := congrArg Prod.fst hok2
          have hresp : resp = ⟨(genRows u (none : Option PyDate).isSome p.country
              (strftimeDDMMMYYYY rd) (pdString none) lns (mtSeed 42)).1⟩ :=
            (Except.ok.inj hfst).symm
          rw [hresp] at hr
          have hr' : r ∈ (genRows u false p.country (strftimeDDMMMYYYY rd) (pdString none)
              lns (mtSeed 42)).1 := hr
          have hA := genRows_PREV_DATE u false p.country (strftimeDDMMMYYYY rd)
            (pdString none) lns (mtSeed 42) r hr'
          have hB := genRows_no_prev u p.country (strftimeDDMMMYYYY rd)
            (pdString none) lns (mtSeed 42) r hr'
          exact ⟨hA, hB.1, hB.2⟩

/-- C10 witness: the theorem at the concrete request
`from_date=31AUG2019, to_date="", lines=6, country=SG` with the degenerate
generator; the success hypothesis is discharged by computing the handler. -/
theorem c10_witness :
    handle_run uU seedU ⟨"31AUG2019", some "", "6", "SG"⟩ () =
      handle_run uU seedU ⟨"31AUG2019", none, "6", "SG"⟩ () ∧
    ∀ r ∈ (RunResponse.mk
        [⟨"SG", 6, "31Aug2019", "", 1060, JVal.str "", JVal.str ""⟩]).rows,
      r.PREV_DATE = "" ∧ r.PREV_VALUE = JVal.str "" ∧ r.DELTA = JVal.str "" := by
  have h := c10_empty_to_date uU seedU () "31AUG2019" "6" "SG"
  exact ⟨h.1, h.2 ⟨[⟨"SG", 6, "31Aug2019", "", 1060, JVal.str "", JVal.str ""⟩]⟩ ()
    (by with_unfolding_all rfl)⟩
